import Mathlib

/-!
Verification of the qddc 2D software compositor.

The repository splits into two layers:
* a host-side TypeScript object model (`src/engine/sprite.ts`,
  `src/engine/engine.ts`) that mirrors sprite transform state and pushes
  mutations into the core through a dirty-sync protocol; this layer is
  embedded here directly from the source;
* the compositor core (`World`: sprite store, scene, sampler, compositor),
  which the wrapper imports as a compiled module and whose source is not part
  of the repository tree; those definitions are modelled from the spec and
  are marked `Modelled from the spec:` in their doc comments.

Numeric values that are IEEE doubles in the source are modelled as rationals;
the trigonometric functions used by the rotation matrix are abstracted as
explicit function parameters `cosf sinf : ℚ → ℚ`.
-/

namespace QDDC

/-- A 2D vector with rational coordinates, standing for the `{x, y}` records
of the source. -/
structure Vec2 where
  x : ℚ
  y : ℚ
deriving DecidableEq

/-- An RGBA8 color; channels are natural numbers (bytes 0..255 in the code). -/
structure Color where
  r : ℕ
  g : ℕ
  b : ℕ
  a : ℕ
deriving DecidableEq

/-- A color with rational channels, the intermediate result of filtering
before it is written back to the byte frame buffer. -/
structure QColor where
  r : ℚ
  g : ℚ
  b : ℚ
  a : ℚ
deriving DecidableEq

/-- The fully transparent color (coverage zero). -/
def QColor.transparent : QColor := ⟨0, 0, 0, 0⟩

/-- Lift a byte color to rational channels. -/
def liftColor (c : Color) : QColor := ⟨c.r, c.g, c.b, c.a⟩

/-! ## Host-side sprite object (`src/engine/sprite.ts`) -/

/-- The host-side `Sprite` class state: id, position (geometric center),
accumulated rotation and scale, z-index, and the `_transformDirty` flag.
The `_updateFn` callback is modelled at the engine level instead of being
stored in the sprite. -/
structure Sprite where
  id : ℕ
  position : Vec2
  rotation : ℚ
  scale : Vec2
  zindex : ℤ
  transformDirty : Bool
deriving DecidableEq

/-- The `Sprite` constructor: position (0,0), rotation 0, scale (1,1),
z-index 0, clean transform flag. -/
def Sprite.init (id : ℕ) : Sprite :=
  ⟨id, ⟨0, 0⟩, 0, ⟨1, 1⟩, 0, false⟩

/-- `Sprite.translate(dx, dy)`: adds to the position; does not touch the
dirty flag. -/
def Sprite.translate (s : Sprite) (dx dy : ℚ) : Sprite :=
  { s with position := ⟨s.position.x + dx, s.position.y + dy⟩ }

/-- `Sprite.setPosition(x, y)`: overwrites the position; does not touch the
dirty flag. -/
def Sprite.setPosition (s : Sprite) (x y : ℚ) : Sprite :=
  { s with position := ⟨x, y⟩ }

/-- `Sprite.rotate(angle)`: accumulates rotation and sets the dirty flag. -/
def Sprite.rotate (s : Sprite) (angle : ℚ) : Sprite :=
  { s with rotation := s.rotation + angle, transformDirty := true }

/-- `Sprite.setRotation(angle)`: overwrites rotation and sets the dirty
flag. -/
def Sprite.setRotation (s : Sprite) (angle : ℚ) : Sprite :=
  { s with rotation := angle, transformDirty := true }

/-- `Sprite.setScale(sx, sy)`: overwrites the scale and sets the dirty
flag. -/
def Sprite.setScale (s : Sprite) (sx sy : ℚ) : Sprite :=
  { s with scale := ⟨sx, sy⟩, transformDirty := true }

/-- `Sprite.scaleBy(sx, sy)`: multiplies the scale and sets the dirty
flag. -/
def Sprite.scaleBy (s : Sprite) (sx sy : ℚ) : Sprite :=
  { s with scale := ⟨s.scale.x * sx, s.scale.y * sy⟩, transformDirty := true }

/-- `Sprite.setZIndex(zindex)`: overwrites the z-index; does not touch the
dirty flag. -/
def Sprite.setZIndex (s : Sprite) (z : ℤ) : Sprite :=
  { s with zindex := z }

/-- `Sprite.resetTransform()`: rotation back to 0, scale back to (1,1), sets
the dirty flag. -/
def Sprite.resetTransform (s : Sprite) : Sprite :=
  { s with rotation := 0, scale := ⟨1, 1⟩, transformDirty := true }

/-- The mutating calls of the host `Sprite` class, as data, so that
sequences of mutations can be quantified over. -/
inductive SpriteOp where
  | translate (dx dy : ℚ)
  | setPosition (x y : ℚ)
  | rotate (angle : ℚ)
  | setRotation (angle : ℚ)
  | setScale (sx sy : ℚ)
  | scaleBy (sx sy : ℚ)
  | setZIndex (z : ℤ)
  | resetTransform
deriving DecidableEq

/-- Dispatch a `SpriteOp` to the corresponding `Sprite` method. -/
def applyOp (s : Sprite) : SpriteOp → Sprite
  | .translate dx dy => s.translate dx dy
  | .setPosition x y => s.setPosition x y
  | .rotate angle => s.rotate angle
  | .setRotation angle => s.setRotation angle
  | .setScale sx sy => s.setScale sx sy
  | .scaleBy sx sy => s.scaleBy sx sy
  | .setZIndex z => s.setZIndex z
  | .resetTransform => s.resetTransform

/-- Whether an operation is one of the rotation/scale mutations, exactly
those whose bodies in `sprite.ts` assign `_transformDirty = true`. -/
def isTransformOp : SpriteOp → Bool
  | .rotate _ => true
  | .setRotation _ => true
  | .setScale _ _ => true
  | .scaleBy _ _ => true
  | .resetTransform => true
  | _ => false

/-! ## The dirty-sync protocol (`Engine._syncSpriteToWasm`) -/

/-- The `World` setter calls that `Engine._syncSpriteToWasm` can emit. -/
inductive WasmCall where
  | setSpritePosition (id : ℕ) (x y : ℚ)
  | setSpriteZindex (id : ℕ) (z : ℤ)
  | applySpriteTransform (id : ℕ) (rot sx sy : ℚ)
deriving DecidableEq

/-- `Engine._syncSpriteToWasm`: always pushes position and z-index; pushes
the combined rotation/scale transform only when the sprite's dirty flag is
set, clearing the flag in that case. Returns the updated sprite and the
emitted calls in order. -/
def syncSpriteToWasm (s : Sprite) : Sprite × List WasmCall :=
  let base := [WasmCall.setSpritePosition s.id s.position.x s.position.y,
               WasmCall.setSpriteZindex s.id s.zindex]
  if s.transformDirty then
    ({ s with transformDirty := false },
     base ++ [WasmCall.applySpriteTransform s.id s.rotation s.scale.x s.scale.y])
  else
    (s, base)

/-- Whether a call is an `apply_sprite_transform` invocation. -/
def isApplyTransformCall : WasmCall → Bool
  | .applySpriteTransform _ _ _ _ => true
  | _ => false

theorem applyOp_transformDirty (s : Sprite) (op : SpriteOp) :
    (applyOp s op).transformDirty = (isTransformOp op || s.transformDirty) := by
  cases op <;>
    simp [applyOp, isTransformOp, Sprite.translate, Sprite.setPosition,
      Sprite.rotate, Sprite.setRotation, Sprite.setScale, Sprite.scaleBy,
      Sprite.setZIndex, Sprite.resetTransform]

theorem foldl_applyOp_transformDirty (ops : List SpriteOp) (s : Sprite) :
    (ops.foldl applyOp s).transformDirty
      = (s.transformDirty || ops.any isTransformOp) := by
  induction ops generalizing s with
  | nil => simp
  | cons op rest ih =>
      simp [List.foldl_cons, ih, applyOp_transformDirty, Bool.or_comm,
        Bool.or_assoc, Bool.or_left_comm]

theorem syncSpriteToWasm_clean (s : Sprite) :
    ((syncSpriteToWasm s).1).transformDirty = false := by
  by_cases h : s.transformDirty = true <;> simp [syncSpriteToWasm, h]

theorem syncSpriteToWasm_any_apply (s : Sprite) :
    ((syncSpriteToWasm s).2.any isApplyTransformCall) = s.transformDirty := by
  by_cases h : s.transformDirty = true <;>
    simp [syncSpriteToWasm, h, isApplyTransformCall]

theorem syncSpriteToWasm_mem_position (s : Sprite) :
    WasmCall.setSpritePosition s.id s.position.x s.position.y
      ∈ (syncSpriteToWasm s).2 := by
  by_cases h : s.transformDirty = true <;> simp [syncSpriteToWasm, h]

theorem syncSpriteToWasm_mem_zindex (s : Sprite) :
    WasmCall.setSpriteZindex s.id s.zindex ∈ (syncSpriteToWasm s).2 := by
  by_cases h : s.transformDirty = true <;> simp [syncSpriteToWasm, h]

/-- Claim C1: for every sequence of host `Sprite` mutations performed after a
sync, the next `_syncSpriteToWasm` pushes position and z-index, invokes
`world.apply_sprite_transform` if and only if some rotation/scale mutation
(`rotate`, `setRotation`, `setScale`, `scaleBy`, `resetTransform`) occurred
since the previous sync, and leaves the dirty flag clear. -/
theorem dirty_sync_protocol (s : Sprite) (ops : List SpriteOp) :
    (((syncSpriteToWasm (ops.foldl applyOp (syncSpriteToWasm s).1)).2.any
        isApplyTransformCall) = true
      ↔ ops.any isTransformOp = true)
    ∧ ((syncSpriteToWasm (ops.foldl applyOp (syncSpriteToWasm s).1)).1).transformDirty
        = false
    ∧ WasmCall.setSpritePosition
        (ops.foldl applyOp (syncSpriteToWasm s).1).id
        (ops.foldl applyOp (syncSpriteToWasm s).1).position.x
        (ops.foldl applyOp (syncSpriteToWasm s).1).position.y
        ∈ (syncSpriteToWasm (ops.foldl applyOp (syncSpriteToWasm s).1)).2
    ∧ WasmCall.setSpriteZindex
        (ops.foldl applyOp (syncSpriteToWasm s).1).id
        (ops.foldl applyOp (syncSpriteToWasm s).1).zindex
        ∈ (syncSpriteToWasm (ops.foldl applyOp (syncSpriteToWasm s).1)).2 := by
  refine ⟨?_, syncSpriteToWasm_clean _,
    syncSpriteToWasm_mem_position _, syncSpriteToWasm_mem_zindex _⟩
  rw [syncSpriteToWasm_any_apply, foldl_applyOp_transformDirty,
    syncSpriteToWasm_clean]
  simp

/-! ## The host-mirrored transform state (claim C2)

The core keeps its own copy of each sprite's position, rotation, scale and
z-index, updated only through the calls emitted by the sync protocol; the
cached forward matrix is a function of that copy. -/

/-- Modelled from the spec: the core-side per-sprite transform state that the
emitted `WasmCall`s update, i.e. the inputs of the cached forward matrix. -/
structure WasmSpriteState where
  position : Vec2
  rotation : ℚ
  scale : Vec2
  zindex : ℤ
deriving DecidableEq

/-- Modelled from the spec: effect of one emitted setter call on the
core-side transform state. -/
def applyWasmCall (m : WasmSpriteState) : WasmCall → WasmSpriteState
  | .setSpritePosition _ x y => { m with position := ⟨x, y⟩ }
  | .setSpriteZindex _ z => { m with zindex := z }
  | .applySpriteTransform _ r sx sy =>
      { m with rotation := r, scale := ⟨sx, sy⟩ }

/-- Apply a list of emitted calls in order. -/
def applyWasmCalls (m : WasmSpriteState) (cs : List WasmCall) : WasmSpriteState :=
  cs.foldl applyWasmCall m

/-- A 2D affine matrix, as the six coefficients of
`(u, v) ↦ (a·u + b·v + e, c·u + d·v + f)`. -/
structure AffineMat where
  a : ℚ
  b : ℚ
  c : ℚ
  d : ℚ
  e : ℚ
  f : ℚ
deriving DecidableEq

/-- Modelled from the spec: the cached forward matrix
`T = Translate(position) · Rotate(rotation) · Scale(scale)`; the cosine and
sine of the source are abstracted as the parameters `cosf`, `sinf`. -/
def transformMatrix (cosf sinf : ℚ → ℚ) (pos : Vec2) (rot : ℚ) (scale : Vec2) :
    AffineMat :=
  ⟨cosf rot * scale.x, -(sinf rot) * scale.y,
   sinf rot * scale.x, cosf rot * scale.y,
   pos.x, pos.y⟩

/-- The sync invariant relating a host sprite to the core-side transform
state: whenever the dirty flag is clear, the core's rotation and scale agree
with the host's. (Position and z-index are pushed unconditionally on every
sync, so they carry no flag.) -/
def mirrorAgrees (s : Sprite) (m : WasmSpriteState) : Prop :=
  s.transformDirty = false → (m.rotation = s.rotation ∧ m.scale = s.scale)

theorem applyOp_rotation_scale_of_not_transform (s : Sprite) (op : SpriteOp)
    (h : isTransformOp op = false) :
    (applyOp s op).rotation = s.rotation ∧ (applyOp s op).scale = s.scale := by
  cases op <;> simp_all [applyOp, isTransformOp, Sprite.translate,
    Sprite.setPosition, Sprite.setZIndex]

/-- Claim C2, counterexample: `setPosition` is a position mutation that does
not set the transform-stale bit, refuting "every mutation of position,
rotation, or scale sets the stale bit" as stated. -/
theorem position_mutation_not_stale_cex :
    (applyOp (Sprite.init 0) (SpriteOp.setPosition 5 7)).position
        ≠ (Sprite.init 0).position
    ∧ (applyOp (Sprite.init 0) (SpriteOp.setPosition 5 7)).transformDirty
        = false := by
  constructor
  · intro h
    have hx := congrArg Vec2.x h
    simp [applyOp, Sprite.setPosition, Sprite.init] at hx
  · rfl

/-- Claim C2, amended: rotation/scale mutations (`rotate`, `setRotation`,
`setScale`, `scaleBy`, `resetTransform`) set the transform-stale bit while
position/z-index mutations leave it unchanged; and, assuming the sync
invariant, after any mutation followed by a sync the stale bit is clear and
the core-side cached forward matrix agrees with the host's logical transform
(the matrix is valid whenever the stale bit is clear). -/
theorem stale_bit_tracks_rotation_scale (s : Sprite) (m : WasmSpriteState)
    (op : SpriteOp) (hm : mirrorAgrees s m) (cosf sinf : ℚ → ℚ) :
    (applyOp s op).transformDirty = (isTransformOp op || s.transformDirty)
    ∧ ((syncSpriteToWasm (applyOp s op)).1).transformDirty = false
    ∧ (applyWasmCalls m (syncSpriteToWasm (applyOp s op)).2).position
        = (applyOp s op).position
    ∧ (applyWasmCalls m (syncSpriteToWasm (applyOp s op)).2).rotation
        = (applyOp s op).rotation
    ∧ (applyWasmCalls m (syncSpriteToWasm (applyOp s op)).2).scale
        = (applyOp s op).scale
    ∧ transformMatrix cosf sinf
        (applyWasmCalls m (syncSpriteToWasm (applyOp s op)).2).position
        (applyWasmCalls m (syncSpriteToWasm (applyOp s op)).2).rotation
        (applyWasmCalls m (syncSpriteToWasm (applyOp s op)).2).scale
      = transformMatrix cosf sinf (applyOp s op).position
          (applyOp s op).rotation (applyOp s op).scale := by
  have hdirty := applyOp_transformDirty s op
  refine ⟨hdirty, syncSpriteToWasm_clean _, ?_⟩
  by_cases h : (applyOp s op).transformDirty = true
  · constructor
    · simp [syncSpriteToWasm, h, applyWasmCalls, applyWasmCall]
    · constructor
      · simp [syncSpriteToWasm, h, applyWasmCalls, applyWasmCall]
      · constructor
        · simp [syncSpriteToWasm, h, applyWasmCalls, applyWasmCall]
        · simp [syncSpriteToWasm, h, applyWasmCalls, applyWasmCall]
  · have hb := h
    rw [hdirty] at hb
    simp at hb
    have hof : isTransformOp op = false := hb.1
    have hsd : s.transformDirty = false := hb.2
    have hpre := applyOp_rotation_scale_of_not_transform s op hof
    have hagree := hm hsd
    constructor
    · simp [syncSpriteToWasm, h, applyWasmCalls, applyWasmCall]
    · constructor
      · simp [syncSpriteToWasm, h, applyWasmCalls, applyWasmCall,
          hpre.1 ▸ hagree.1]
      · constructor
        · simp [syncSpriteToWasm, h, applyWasmCalls, applyWasmCall,
            hpre.2 ▸ hagree.2]
        · simp [syncSpriteToWasm, h, applyWasmCalls, applyWasmCall,
            hpre.1 ▸ hagree.1, hpre.2 ▸ hagree.2]

/-- Witness for the amended claim C2, at the concrete mutation
`rotate (1)` on a freshly constructed sprite with an agreeing core state. -/
theorem stale_bit_tracks_rotation_scale_witness :
    (applyOp (Sprite.init 0) (SpriteOp.rotate 1)).transformDirty
        = (isTransformOp (SpriteOp.rotate 1) || (Sprite.init 0).transformDirty)
    ∧ ((syncSpriteToWasm (applyOp (Sprite.init 0) (SpriteOp.rotate 1))).1).transformDirty
        = false
    ∧ (applyWasmCalls ⟨⟨0, 0⟩, 0, ⟨1, 1⟩, 0⟩
          (syncSpriteToWasm (applyOp (Sprite.init 0) (SpriteOp.rotate 1))).2).position
        = (applyOp (Sprite.init 0) (SpriteOp.rotate 1)).position
    ∧ (applyWasmCalls ⟨⟨0, 0⟩, 0, ⟨1, 1⟩, 0⟩
          (syncSpriteToWasm (applyOp (Sprite.init 0) (SpriteOp.rotate 1))).2).rotation
        = (applyOp (Sprite.init 0) (SpriteOp.rotate 1)).rotation
    ∧ (applyWasmCalls ⟨⟨0, 0⟩, 0, ⟨1, 1⟩, 0⟩
          (syncSpriteToWasm (applyOp (Sprite.init 0) (SpriteOp.rotate 1))).2).scale
        = (applyOp (Sprite.init 0) (SpriteOp.rotate 1)).scale
    ∧ transformMatrix (fun _ => 1) (fun _ => 0)
        (applyWasmCalls ⟨⟨0, 0⟩, 0, ⟨1, 1⟩, 0⟩
          (syncSpriteToWasm (applyOp (Sprite.init 0) (SpriteOp.rotate 1))).2).position
        (applyWasmCalls ⟨⟨0, 0⟩, 0, ⟨1, 1⟩, 0⟩
          (syncSpriteToWasm (applyOp (Sprite.init 0) (SpriteOp.rotate 1))).2).rotation
        (applyWasmCalls ⟨⟨0, 0⟩, 0, ⟨1, 1⟩, 0⟩
          (syncSpriteToWasm (applyOp (Sprite.init 0) (SpriteOp.rotate 1))).2).scale
      = transformMatrix (fun _ => 1) (fun _ => 0)
          (applyOp (Sprite.init 0) (SpriteOp.rotate 1)).position
          (applyOp (Sprite.init 0) (SpriteOp.rotate 1)).rotation
          (applyOp (Sprite.init 0) (SpriteOp.rotate 1)).scale :=
  stale_bit_tracks_rotation_scale (Sprite.init 0) ⟨⟨0, 0⟩, 0, ⟨1, 1⟩, 0⟩
    (SpriteOp.rotate 1) (fun _ => ⟨rfl, rfl⟩) (fun _ => 1) (fun _ => 0)

/-! ## The compositor core (`World`)

The wrapper imports the core as a compiled module; its source is not in the
repository tree, so the definitions below are modelled from the spec
(sections 3, 4 and 7). -/

/-- Modelled from the spec: the three error kinds of section 7. -/
inductive EngineError where
  | invalidHandle
  | invalidDimensions
  | bufferSizeMismatch
deriving DecidableEq

/-- Modelled from the spec: the per-sprite record of the sprite store —
immutable dimensions, raw RGBA8 pixel buffer (row-major, 4 bytes per pixel),
position of the geometric center, rotation, independent x/y scale and
z-index. -/
structure SpriteData where
  width : ℕ
  height : ℕ
  data : List ℕ
  pos : Vec2
  rot : ℚ
  scale : Vec2
  zindex : ℤ
deriving DecidableEq

/-- Modelled from the spec: a freshly created sprite carries the default
transform — position (0,0), rotation 0, scale (1,1), z-index 0. -/
def mkSpriteData (pixels : List ℕ) (w h : ℕ) : SpriteData :=
  ⟨w, h, pixels, ⟨0, 0⟩, 0, ⟨1, 1⟩, 0⟩

/-- Look a handle up in an association list of live sprites. -/
def lookupSprite (h : ℕ) : List (ℕ × SpriteData) → Option SpriteData
  | [] => none
  | (k, sp) :: rest => if k = h then some sp else lookupSprite h rest

/-- Update every entry of a given handle in the store. -/
def updateSprite (h : ℕ) (f : SpriteData → SpriteData) :
    List (ℕ × SpriteData) → List (ℕ × SpriteData)
  | [] => []
  | (k, sp) :: rest =>
      (if k = h then (k, f sp) else (k, sp)) :: updateSprite h f rest

/-- Modelled from the spec: the engine state — frame dimensions, the sprite
store (an arena addressed by integer handles with a fresh-handle counter),
the scene membership list, the background color and the numeric sampling
method code. -/
structure World where
  width : ℕ
  height : ℕ
  sprites : List (ℕ × SpriteData)
  nextId : ℕ
  scene : List ℕ
  bg : Color
  sampling : ℕ
deriving DecidableEq

/-- Find the sprite stored under a handle, if the handle is live. -/
def World.findSprite (w : World) (h : ℕ) : Option SpriteData :=
  lookupSprite h w.sprites

/-- Modelled from the spec: `create(pixels, width, height)` fails with
`InvalidDimensions` when `width*height == 0` and with `BufferSizeMismatch`
when the buffer length is not `width*height*4`; otherwise it allocates a new
handle with the default transform. On failure the world is unchanged. -/
def World.createSprite (w : World) (pixels : List ℕ) (sw sh : ℕ) :
    World × Except EngineError ℕ :=
  if sw * sh = 0 then (w, .error .invalidDimensions)
  else if pixels.length ≠ sw * sh * 4 then (w, .error .bufferSizeMismatch)
  else ({ w with
            sprites := w.sprites ++ [(w.nextId, mkSpriteData pixels sw sh)],
            nextId := w.nextId + 1 },
        .ok w.nextId)

/-- Modelled from the spec: `createRect` synthesizes a solid-color RGBA
buffer and creates a sprite from it. -/
def World.createRectSprite (w : World) (sw sh r g b a : ℕ) :
    World × Except EngineError ℕ :=
  w.createSprite ((List.replicate (sw * sh) [r, g, b, a]).flatten) sw sh

/-- Modelled from the spec: `remove(handle)` fails with `InvalidHandle` on a
dead handle; otherwise it releases the slot and drops the handle from the
scene. -/
def World.removeSprite (w : World) (h : ℕ) :
    World × Except EngineError Unit :=
  match w.findSprite h with
  | none => (w, .error .invalidHandle)
  | some _ =>
      ({ w with sprites := w.sprites.filter (fun p => p.1 ≠ h),
                scene := w.scene.erase h },
       .ok ())

/-- Modelled from the spec: position setter; `InvalidHandle` on a dead
handle. -/
def World.setSpritePosition (w : World) (h : ℕ) (x y : ℚ) :
    World × Except EngineError Unit :=
  match w.findSprite h with
  | none => (w, .error .invalidHandle)
  | some _ =>
      ({ w with sprites := updateSprite h (fun sp => { sp with pos := ⟨x, y⟩ })
                  w.sprites },
       .ok ())

/-- Modelled from the spec: rotation setter; `InvalidHandle` on a dead
handle. -/
def World.setSpriteRotation (w : World) (h : ℕ) (angle : ℚ) :
    World × Except EngineError Unit :=
  match w.findSprite h with
  | none => (w, .error .invalidHandle)
  | some _ =>
      ({ w with sprites := updateSprite h (fun sp => { sp with rot := angle })
                  w.sprites },
       .ok ())

/-- Modelled from the spec: scale setter; `InvalidHandle` on a dead
handle. -/
def World.setSpriteScale (w : World) (h : ℕ) (sx sy : ℚ) :
    World × Except EngineError Unit :=
  match w.findSprite h with
  | none => (w, .error .invalidHandle)
  | some _ =>
      ({ w with sprites := updateSprite h
                  (fun sp => { sp with scale := ⟨sx, sy⟩ }) w.sprites },
       .ok ())

/-- Modelled from the spec: z-index setter; `InvalidHandle` on a dead
handle. -/
def World.setSpriteZIndex (w : World) (h : ℕ) (z : ℤ) :
    World × Except EngineError Unit :=
  match w.findSprite h with
  | none => (w, .error .invalidHandle)
  | some _ =>
      ({ w with sprites := updateSprite h (fun sp => { sp with zindex := z })
                  w.sprites },
       .ok ())

/-- Modelled from the spec: `applySpriteTransform(handle, rotation, scaleX,
scaleY)`, the atomic combined rotation/scale update used by the dirty-sync
protocol; `InvalidHandle` on a dead handle. -/
def World.applySpriteTransform (w : World) (h : ℕ) (rot sx sy : ℚ) :
    World × Except EngineError Unit :=
  match w.findSprite h with
  | none => (w, .error .invalidHandle)
  | some _ =>
      ({ w with sprites := updateSprite h
                  (fun sp => { sp with rot := rot, scale := ⟨sx, sy⟩ })
                  w.sprites },
       .ok ())

/-- Modelled from the spec: `resetSpriteTransform(handle)` restores rotation
to 0 and scale to (1,1) in one step; `InvalidHandle` on a dead handle. -/
def World.resetSpriteTransform (w : World) (h : ℕ) :
    World × Except EngineError Unit :=
  match w.findSprite h with
  | none => (w, .error .invalidHandle)
  | some _ =>
      ({ w with sprites := updateSprite h
                  (fun sp => { sp with rot := 0, scale := ⟨1, 1⟩ })
                  w.sprites },
       .ok ())

/-- Modelled from the spec: `addToScene(handle)` fails with `InvalidHandle`
when the sprite no longer exists; adding an already-present handle is a
membership no-op. -/
def World.addToScene (w : World) (h : ℕ) :
    World × Except EngineError Unit :=
  match w.findSprite h with
  | none => (w, .error .invalidHandle)
  | some _ =>
      if h ∈ w.scene then (w, .ok ())
      else ({ w with scene := h :: w.scene }, .ok ())

/-- Modelled from the spec: `removeFromScene(handle)` removes the handle
from the membership set; removing an absent handle is a no-op, not an
error. -/
def World.removeFromScene (w : World) (h : ℕ) :
    World × Except EngineError Unit :=
  ({ w with scene := w.scene.erase h }, .ok ())

/-- Modelled from the spec: process-wide background color. -/
def World.setBackgroundColor (w : World) (r g b a : ℕ) : World :=
  { w with bg := ⟨r, g, b, a⟩ }

/-- Modelled from the spec: the world stores the numeric sampling-method
code the wrapper passes in. -/
def World.setSamplingMethod (w : World) (code : ℕ) : World :=
  { w with sampling := code }

/-- Modelled from the spec: the getter returns the stored numeric code. -/
def World.getSamplingMethod (w : World) : ℕ :=
  w.sampling

/-- Modelled from the spec: `resize` fails with `InvalidDimensions` on a
zero area and otherwise reallocates the frame buffer to the new
dimensions, invalidating no sprite state. -/
def World.resizeScene (w : World) (sw sh : ℕ) :
    World × Except EngineError Unit :=
  if sw * sh = 0 then (w, .error .invalidDimensions)
  else ({ w with width := sw, height := sh }, .ok ())

/-! ## Scene ordering -/

/-- The z-index stored for a handle, defaulting to 0 for a dead handle. -/
def zindexOf (w : World) (h : ℕ) : ℤ :=
  (w.findSprite h).elim 0 SpriteData.zindex

/-- Modelled from the spec: the compositing order — ascending z-index, ties
broken by ascending handle value. -/
def spriteLe (w : World) (a b : ℕ) : Bool :=
  decide (zindexOf w a < zindexOf w b)
    || (decide (zindexOf w a = zindexOf w b) && decide (a ≤ b))

/-- Ordered insertion with respect to a boolean relation. -/
def insertLe (le : ℕ → ℕ → Bool) (a : ℕ) : List ℕ → List ℕ
  | [] => [a]
  | b :: l => if le a b then a :: b :: l else b :: insertLe le a l

/-- Insertion sort with respect to a boolean relation. -/
def sortLe (le : ℕ → ℕ → Bool) : List ℕ → List ℕ
  | [] => []
  | a :: l => insertLe le a (sortLe le l)

/-- The scene members whose sprite still exists. -/
def liveScene (w : World) : List ℕ :=
  w.scene.filter (fun h => (w.findSprite h).isSome)

/-- Modelled from the spec: `orderedVisible()` — the live scene handles
re-sorted ascending by z-index, ties broken by ascending handle. -/
def orderedVisible (w : World) : List ℕ :=
  sortLe (spriteLe w) (liveScene w)

theorem mem_insertLe (le : ℕ → ℕ → Bool) (a x : ℕ) (l : List ℕ)
    (hx : x ∈ insertLe le a l) : x = a ∨ x ∈ l := by
  induction l with
  | nil => simpa [insertLe] using hx
  | cons b l ih =>
      by_cases h : le a b = true
      · simpa [insertLe, h] using hx
      · simp only [insertLe, h] at hx
        simp at hx
        rcases hx with h1 | h2
        · exact Or.inr (by simp [h1])
        · rcases ih h2 with h3 | h4
          · exact Or.inl h3
          · exact Or.inr (by simp [h4])

theorem sorted_insertLe (le : ℕ → ℕ → Bool)
    (htot : ∀ a b, le a b = true ∨ le b a = true)
    (htrans : ∀ a b c, le a b = true → le b c = true → le a c = true)
    (a : ℕ) (l : List ℕ)
    (hs : List.Sorted (fun x y => le x y = true) l) :
    List.Sorted (fun x y => le x y = true) (insertLe le a l) := by
  induction l with
  | nil => simp [insertLe]
  | cons b l ih =>
      rcases List.sorted_cons.mp hs with ⟨hb, hl⟩
      by_cases h : le a b = true
      · rw [insertLe, if_pos h]
        refine List.sorted_cons.mpr ⟨?_, hs⟩
        intro x hx
        simp at hx
        rcases hx with h1 | h2
        · simpa [h1] using h
        · exact htrans a b x h (hb x h2)
      · rw [insertLe, if_neg h]
        refine List.sorted_cons.mpr ⟨?_, ih hl⟩
        intro x hx
        rcases mem_insertLe le a x _ hx with h1 | h2
        · rcases htot a b with h3 | h4
          · exact absurd h3 h
          · rw [h1]; exact h4
        · exact hb x h2

theorem sorted_sortLe (le : ℕ → ℕ → Bool)
    (htot : ∀ a b, le a b = true ∨ le b a = true)
    (htrans : ∀ a b c, le a b = true → le b c = true → le a c = true)
    (l : List ℕ) :
    List.Sorted (fun x y => le x y = true) (sortLe le l) := by
  induction l with
  | nil => simp [sortLe]
  | cons a l ih => exact sorted_insertLe le htot htrans a _ ih

theorem perm_insertLe (le : ℕ → ℕ → Bool) (a : ℕ) (l : List ℕ) :
    (insertLe le a l).Perm (a :: l) := by
  induction l with
  | nil => simp [insertLe]
  | cons b l ih =>
      by_cases h : le a b = true
      · simp [insertLe, h]
      · rw [insertLe, if_neg h]
        exact (ih.cons b).trans (List.Perm.swap a b l)

theorem perm_sortLe (le : ℕ → ℕ → Bool) (l : List ℕ) :
    (sortLe le l).Perm l := by
  induction l with
  | nil => simp [sortLe]
  | cons a l ih => exact (perm_insertLe le a _).trans (ih.cons a)

theorem spriteLe_total (w : World) (a b : ℕ) :
    spriteLe w a b = true ∨ spriteLe w b a = true := by
  simp only [spriteLe, Bool.or_eq_true, Bool.and_eq_true, decide_eq_true_eq]
  omega

theorem spriteLe_trans (w : World) (a b c : ℕ)
    (hab : spriteLe w a b = true) (hbc : spriteLe w b c = true) :
    spriteLe w a c = true := by
  simp only [spriteLe, Bool.or_eq_true, Bool.and_eq_true,
    decide_eq_true_eq] at hab hbc ⊢
  omega

/-! ## Sampler and compositor -/

/-- Modelled from the spec: the closed tagged variant of sampling
policies. This is also the value space of the wrapper's TypeScript union
type `SamplingMethod`. -/
inductive SamplingMethod where
  | nearest
  | bilinear
  | supersampling
deriving DecidableEq

/-- Read one texel of a sprite's pixel buffer (row-major, 4 bytes per
pixel), at integer texel coordinates already known to be in range. -/
def pixelAt (data : List ℕ) (sw x y : ℕ) : Color :=
  ⟨data.getD (4 * (y * sw + x)) 0,
   data.getD (4 * (y * sw + x) + 1) 0,
   data.getD (4 * (y * sw + x) + 2) 0,
   data.getD (4 * (y * sw + x) + 3) 0⟩

/-- Modelled from the spec: fetch an integer texel, treating out-of-bounds
neighbor contributions as transparent (alpha 0). -/
def texel (sp : SpriteData) (x y : ℤ) : QColor :=
  if 0 ≤ x ∧ x < sp.width ∧ 0 ≤ y ∧ y < sp.height then
    liftColor (pixelAt sp.data sp.width x.toNat y.toNat)
  else QColor.transparent

/-- Modelled from the spec: nearest filtering rounds to the containing
integer pixel and returns its stored color unmodified. -/
def nearestFilter (sp : SpriteData) (u v : ℚ) : QColor :=
  texel sp ⌊u⌋ ⌊v⌋

/-- Channel-wise weighted sum of two colors. -/
def mixQ (t : ℚ) (c0 c1 : QColor) : QColor :=
  ⟨(1 - t) * c0.r + t * c1.r, (1 - t) * c0.g + t * c1.g,
   (1 - t) * c0.b + t * c1.b, (1 - t) * c0.a + t * c1.a⟩

/-- Modelled from the spec: bilinear filtering takes the four pixels
surrounding the coordinate, weighting by the fractional distance in each
axis and interpolating all four channels independently (alpha like
color). Pixel centers sit at half-integer coordinates. -/
def bilinearFilter (sp : SpriteData) (u v : ℚ) : QColor :=
  let x0 : ℤ := ⌊u - 1/2⌋
  let y0 : ℤ := ⌊v - 1/2⌋
  let fx : ℚ := u - 1/2 - x0
  let fy : ℚ := v - 1/2 - y0
  mixQ fy (mixQ fx (texel sp x0 y0) (texel sp (x0 + 1) y0))
          (mixQ fx (texel sp x0 (y0 + 1)) (texel sp (x0 + 1) (y0 + 1)))

/-- Channel-wise average of four colors. -/
def avg4 (c0 c1 c2 c3 : QColor) : QColor :=
  ⟨(c0.r + c1.r + c2.r + c3.r) / 4, (c0.g + c1.g + c2.g + c3.g) / 4,
   (c0.b + c1.b + c2.b + c3.b) / 4, (c0.a + c1.a + c2.a + c3.a) / 4⟩

/-- Modelled from the spec: 2×2 supersampling averages the bilinear result
at four sub-pixel offsets within the pixel's footprint. -/
def superFilter (sp : SpriteData) (u v : ℚ) : QColor :=
  avg4 (bilinearFilter sp (u - 1/4) (v - 1/4))
       (bilinearFilter sp (u + 1/4) (v - 1/4))
       (bilinearFilter sp (u - 1/4) (v + 1/4))
       (bilinearFilter sp (u + 1/4) (v + 1/4))

/-- Modelled from the spec: `sample(sprite, localCoordinate)` — coordinates
outside `[0,width) × [0,height)` always yield fully transparent (coverage
zero) regardless of the filter; in-range coordinates are resolved by the
active filtering policy. -/
def sample (m : SamplingMethod) (sp : SpriteData) (u v : ℚ) : QColor :=
  if u < 0 ∨ (sp.width : ℚ) ≤ u ∨ v < 0 ∨ (sp.height : ℚ) ≤ v then
    QColor.transparent
  else
    match m with
    | .nearest => nearestFilter sp u v
    | .bilinear => bilinearFilter sp u v
    | .supersampling => superFilter sp u v

/-- Modelled from the spec: map a destination scene coordinate back into a
sprite's local texture space: undo the translation, rotation and scale, then
move the origin from the geometric center to the top-left texel corner. -/
def invLocal (cosf sinf : ℚ → ℚ) (sp : SpriteData) (px py : ℚ) : Vec2 :=
  let dx := px - sp.pos.x
  let dy := py - sp.pos.y
  let rx := cosf sp.rot * dx + sinf sp.rot * dy
  let ry := -(sinf sp.rot) * dx + cosf sp.rot * dy
  ⟨rx / sp.scale.x + (sp.width : ℚ) / 2, ry / sp.scale.y + (sp.height : ℚ) / 2⟩

/-- Floor a rational channel value to a byte. -/
def chanByte (q : ℚ) : ℕ := (⌊q⌋).toNat

/-- Modelled from the spec: standard "over" alpha compositing,
`dst = src·srcAlpha + dst·(1-srcAlpha)` channel-wise with alpha normalized
to `[0,1]`, and `dstA = srcA + dstA·(1-srcA)`. -/
def overBlend (c : QColor) (d : Color) : Color :=
  ⟨chanByte ((c.r * c.a + (d.r : ℚ) * (255 - c.a)) / 255),
   chanByte ((c.g * c.a + (d.g : ℚ) * (255 - c.a)) / 255),
   chanByte ((c.b * c.a + (d.b : ℚ) * (255 - c.a)) / 255),
   chanByte (c.a + (d.a : ℚ) * (255 - c.a) / 255)⟩

/-- Decode the stored numeric sampling code, defaulting to nearest for any
unknown code. This is both the core's decoding of its setting and the
wrapper's `methods[value] || 'nearest'` in `Engine.getSamplingMethod`. -/
def methodFromCode (n : ℕ) : SamplingMethod :=
  match n with
  | 0 => .nearest
  | 1 => .bilinear
  | 2 => .supersampling
  | _ => .nearest

/-- Modelled from the spec: composite one sprite over the frame buffer —
for every destination pixel of the frame, sample the sprite at the
inverse-transformed center of the pixel and, when coverage is non-zero,
blend with the "over" operator. (The spec's bounding-box scan is an
optimization: pixels outside the transformed bounds sample at zero coverage
and are left unchanged.) -/
def paintSprite (cosf sinf : ℚ → ℚ) (m : SamplingMethod) (fw fh : ℕ)
    (sp : SpriteData) (fb : ℕ → ℕ → Color) : ℕ → ℕ → Color :=
  fun x y =>
    if x < fw ∧ y < fh then
      let l := invLocal cosf sinf sp ((x : ℚ) + 1/2) ((y : ℚ) + 1/2)
      let c := sample m sp l.x l.y
      if c.a = 0 then fb x y else overBlend c (fb x y)
    else fb x y

/-- Modelled from the spec: `render()` — clear the frame buffer to the
background color, then composite the scene's ordered visible sprites
back-to-front (lowest z first). The frame buffer is modelled as a function
from destination pixel coordinates to colors. -/
def render (cosf sinf : ℚ → ℚ) (w : World) : ℕ → ℕ → Color :=
  (orderedVisible w).foldl
    (fun fb h =>
      match w.findSprite h with
      | none => fb
      | some sp =>
          paintSprite cosf sinf (methodFromCode w.sampling) w.width w.height
            sp fb)
    (fun _ _ => w.bg)

/-! ## Wrapper sampling-method mapping (`Engine.setSamplingMethod` /
`Engine.getSamplingMethod`) -/

/-- The wrapper's `methodMap`: `nearest ↦ 0`, `bilinear ↦ 1`,
`supersampling ↦ 2`. -/
def methodCode : SamplingMethod → ℕ
  | .nearest => 0
  | .bilinear => 1
  | .supersampling => 2

/-- `Engine.setSamplingMethod`: map the method name to its numeric code and
store it in the world. -/
def engineSetSamplingMethod (w : World) (m : SamplingMethod) : World :=
  w.setSamplingMethod (methodCode m)

/-- `Engine.getSamplingMethod`: read the stored numeric code back and decode
it, defaulting to nearest for an unknown code. -/
def engineGetSamplingMethod (w : World) : SamplingMethod :=
  methodFromCode w.getSamplingMethod

/-! ## Example worlds used by the witnesses -/

/-- A 1×1 single-pixel sprite used as a concrete example. -/
def spEx : SpriteData := mkSpriteData [1, 2, 3, 255] 1 1

/-- An example world holding the one live sprite `spEx` under handle 0 and
an empty scene. -/
def wEx : World := ⟨4, 4, [(0, spEx)], 1, [], ⟨0, 0, 0, 0⟩, 0⟩

/-- The example world after adding handle 0 to the scene. -/
def wExScene : World := (wEx.addToScene 0).1

/-- The example world after removing sprite 0. -/
def wExRemoved : World := (wEx.removeSprite 0).1

/-! ## Claim C4 -/

/-- Claim C4: for every sprite and every local texture-space coordinate
outside `[0,width) × [0,height)`, `sample` returns fully transparent
(coverage zero), under each of the three sampling methods. -/
theorem sample_outside_transparent (m : SamplingMethod) (sp : SpriteData)
    (u v : ℚ)
    (h : u < 0 ∨ (sp.width : ℚ) ≤ u ∨ v < 0 ∨ (sp.height : ℚ) ≤ v) :
    sample m sp u v = QColor.transparent := by
  simp only [sample]
  rw [if_pos h]

/-- Witness for claim C4: sampling the example sprite at the out-of-range
coordinate `(-1, 0)` under nearest filtering yields full transparency. -/
theorem sample_outside_transparent_witness :
    sample SamplingMethod.nearest spEx (-1) 0 = QColor.transparent :=
  sample_outside_transparent SamplingMethod.nearest spEx (-1) 0
    (Or.inl (by norm_num))

/-! ## Claim C10 -/

/-- Claim C10: for every sampling method, setting it through the wrapper and
reading it back returns the same method, given that the world stores and
returns the numeric code that was set. -/
theorem sampling_method_roundtrip (w : World) (m : SamplingMethod) :
    engineGetSamplingMethod (engineSetSamplingMethod w m) = m := by
  cases m <;> rfl

/-! ## Claim C9 -/

/-- Claim C9: `addToScene` and `removeFromScene` are idempotent with respect
to scene membership — a second `addToScene` of the same handle returns the
same world (hence the same membership and the same `orderedVisible`
ordering) with success, and `removeFromScene` of an absent handle is a
no-op returning success. -/
theorem scene_membership_idempotent :
    (∀ (w : World) (h : ℕ) (w1 : World),
        w.addToScene h = (w1, Except.ok ()) →
          w1.addToScene h = (w1, Except.ok ())
          ∧ orderedVisible (w1.addToScene h).1 = orderedVisible w1)
    ∧ ∀ (w : World) (h : ℕ), h ∉ w.scene →
        w.removeFromScene h = (w, Except.ok ()) := by
  constructor
  · intro w h w1 hadd
    cases hf : w.findSprite h with
    | none => simp [World.addToScene, hf] at hadd
    | some sp =>
        by_cases hm : h ∈ w.scene
        · simp only [World.addToScene, hf, if_pos hm] at hadd
          have hw1 : w1 = w := ((Prod.ext_iff.mp hadd).1).symm
          subst hw1
          have hsecond : w1.addToScene h = (w1, Except.ok ()) := by
            simp [World.addToScene, hf, hm]
          exact ⟨hsecond, by rw [hsecond]⟩
        · simp only [World.addToScene, hf, if_neg hm] at hadd
          have hw1 : w1 = { w with scene := h :: w.scene } :=
            ((Prod.ext_iff.mp hadd).1).symm
          subst hw1
          have hf1 : World.findSprite { w with scene := h :: w.scene } h
              = some sp := hf
          have hsecond : World.addToScene { w with scene := h :: w.scene } h
              = ({ w with scene := h :: w.scene }, Except.ok ()) := by
            simp [World.addToScene, hf1]
          exact ⟨hsecond, by rw [hsecond]⟩
  · intro w h hmem
    simp [World.removeFromScene, List.erase_of_not_mem hmem]

/-- Witness for claim C9: adding sprite 0 to the example world's scene twice
yields the same world as adding it once, and removing the absent handle 5 is
a successful no-op. -/
theorem scene_membership_idempotent_witness :
    (wExScene.addToScene 0 = (wExScene, Except.ok ())
      ∧ orderedVisible (wExScene.addToScene 0).1 = orderedVisible wExScene)
    ∧ wEx.removeFromScene 5 = (wEx, Except.ok ()) :=
  ⟨scene_membership_idempotent.1 wEx 0 wExScene rfl,
   scene_membership_idempotent.2 wEx 5 (by decide)⟩

/-! ## Claim C5 -/

theorem lookupSprite_filter_self (h : ℕ) (l : List (ℕ × SpriteData)) :
    lookupSprite h (l.filter (fun p => p.1 ≠ h)) = none := by
  induction l with
  | nil => rfl
  | cons p l ih =>
      rw [List.filter_cons]
      by_cases hk : p.1 = h
      · rw [if_neg (by simp [hk])]
        exact ih
      · rw [if_pos (by simp [hk]), lookupSprite, if_neg hk]
        exact ih

/-- The operations of the core interface that reference a sprite handle.
(`removeFromScene` is deliberately absent: section 4.2 of the spec defines
it as a membership no-op on any handle.) -/
inductive HandleOp where
  | removeSprite
  | setSpritePosition (x y : ℚ)
  | setSpriteRotation (angle : ℚ)
  | setSpriteScale (sx sy : ℚ)
  | setSpriteZIndex (z : ℤ)
  | applySpriteTransform (rot sx sy : ℚ)
  | resetSpriteTransform
  | addToScene
deriving DecidableEq

/-- Dispatch a handle-referencing operation to the world. -/
def execHandleOp (w : World) (h : ℕ) : HandleOp → World × Except EngineError Unit
  | .removeSprite => w.removeSprite h
  | .setSpritePosition x y => w.setSpritePosition h x y
  | .setSpriteRotation angle => w.setSpriteRotation h angle
  | .setSpriteScale sx sy => w.setSpriteScale h sx sy
  | .setSpriteZIndex z => w.setSpriteZIndex h z
  | .applySpriteTransform rot sx sy => w.applySpriteTransform h rot sx sy
  | .resetSpriteTransform => w.resetSpriteTransform h
  | .addToScene => w.addToScene h

/-- Claim C5: after a successful `removeSprite`, every handle-referencing
operation on that handle — including a second `removeSprite` — fails with
`InvalidHandle`. -/
theorem removed_handle_invalid (w : World) (h : ℕ) (w1 : World)
    (hrem : w.removeSprite h = (w1, Except.ok ())) (op : HandleOp) :
    (execHandleOp w1 h op).2 = Except.error EngineError.invalidHandle := by
  cases hf : w.findSprite h with
  | none => simp [World.removeSprite, hf] at hrem
  | some sp =>
      simp only [World.removeSprite, hf] at hrem
      have hw1 : w1 = { w with sprites := w.sprites.filter (fun p => p.1 ≠ h),
                               scene := w.scene.erase h } :=
        ((Prod.ext_iff.mp hrem).1).symm
      have hdead : w1.findSprite h = none := by
        rw [hw1]
        exact lookupSprite_filter_self h w.sprites
      cases op <;>
        simp [execHandleOp, World.removeSprite, World.setSpritePosition,
          World.setSpriteRotation, World.setSpriteScale, World.setSpriteZIndex,
          World.applySpriteTransform, World.resetSpriteTransform,
          World.addToScene, hdead]

/-- Witness for claim C5: removing sprite 0 from the example world and
removing it again fails with `InvalidHandle`. -/
theorem removed_handle_invalid_witness :
    (execHandleOp wExRemoved 0 HandleOp.removeSprite).2
      = Except.error EngineError.invalidHandle :=
  removed_handle_invalid wEx 0 wExRemoved rfl HandleOp.removeSprite

/-! ## Claim C6 -/

/-- Every mutating operation of the core interface, as data. -/
inductive MutOp where
  | createSprite (pixels : List ℕ) (sw sh : ℕ)
  | createRectSprite (sw sh r g b a : ℕ)
  | removeSprite (h : ℕ)
  | setSpritePosition (h : ℕ) (x y : ℚ)
  | setSpriteRotation (h : ℕ) (angle : ℚ)
  | setSpriteScale (h : ℕ) (sx sy : ℚ)
  | setSpriteZIndex (h : ℕ) (z : ℤ)
  | applySpriteTransform (h : ℕ) (rot sx sy : ℚ)
  | resetSpriteTransform (h : ℕ)
  | addToScene (h : ℕ)
  | removeFromScene (h : ℕ)
  | setBackgroundColor (r g b a : ℕ)
  | setSamplingMethod (code : ℕ)
  | resizeScene (sw sh : ℕ)
deriving DecidableEq

/-- Dispatch a mutating operation to the world, discarding any returned
handle. -/
def execMutOp (w : World) : MutOp → World × Except EngineError Unit
  | .createSprite pixels sw sh =>
      ((w.createSprite pixels sw sh).1,
       (w.createSprite pixels sw sh).2.map (fun _ => ()))
  | .createRectSprite sw sh r g b a =>
      ((w.createRectSprite sw sh r g b a).1,
       (w.createRectSprite sw sh r g b a).2.map (fun _ => ()))
  | .removeSprite h => w.removeSprite h
  | .setSpritePosition h x y => w.setSpritePosition h x y
  | .setSpriteRotation h angle => w.setSpriteRotation h angle
  | .setSpriteScale h sx sy => w.setSpriteScale h sx sy
  | .setSpriteZIndex h z => w.setSpriteZIndex h z
  | .applySpriteTransform h rot sx sy => w.applySpriteTransform h rot sx sy
  | .resetSpriteTransform h => w.resetSpriteTransform h
  | .addToScene h => w.addToScene h
  | .removeFromScene h => w.removeFromScene h
  | .setBackgroundColor r g b a => (w.setBackgroundColor r g b a, .ok ())
  | .setSamplingMethod code => (w.setSamplingMethod code, .ok ())
  | .resizeScene sw sh => w.resizeScene sw sh

theorem createSprite_invalidDimensions (w : World) (pixels : List ℕ)
    (sw sh : ℕ) (hz : sw * sh = 0) :
    w.createSprite pixels sw sh = (w, Except.error EngineError.invalidDimensions) := by
  simp [World.createSprite, hz]

theorem createSprite_bufferSizeMismatch (w : World) (pixels : List ℕ)
    (sw sh : ℕ) (hz : sw * sh ≠ 0) (hl : pixels.length ≠ sw * sh * 4) :
    w.createSprite pixels sw sh = (w, Except.error EngineError.bufferSizeMismatch) := by
  simp [World.createSprite, hz, hl]

/-- Claim C6: every mutating operation is atomic — whenever it reports an
error, the resulting world is exactly the input world; in particular a
failed `createSprite` (zero dimensions or a mismatched buffer length)
allocates nothing and leaves the sprite store as it was. -/
theorem mutations_atomic :
    (∀ (w : World) (op : MutOp) (e : EngineError),
        (execMutOp w op).2 = Except.error e → (execMutOp w op).1 = w)
    ∧ (∀ (w : World) (pixels : List ℕ) (sw sh : ℕ), sw * sh = 0 →
        w.createSprite pixels sw sh
          = (w, Except.error EngineError.invalidDimensions))
    ∧ (∀ (w : World) (pixels : List ℕ) (sw sh : ℕ),
        sw * sh ≠ 0 → pixels.length ≠ sw * sh * 4 →
        w.createSprite pixels sw sh
          = (w, Except.error EngineError.bufferSizeMismatch)) := by
  refine ⟨?_, createSprite_invalidDimensions, createSprite_bufferSizeMismatch⟩
  intro w op e herr
  cases op with
  | createSprite pixels sw sh =>
      by_cases h1 : sw * sh = 0
      · simp [execMutOp, World.createSprite, h1]
      · by_cases h2 : pixels.length ≠ sw * sh * 4
        · simp [execMutOp, World.createSprite, h1, h2]
        · simp [execMutOp, World.createSprite, h1, h2, Except.map] at herr
  | createRectSprite sw sh r g b a =>
      by_cases h1 : sw * sh = 0
      · simp [execMutOp, World.createRectSprite, World.createSprite, h1]
      · have hlen : ((List.replicate (sw * sh) [r, g, b, a]).flatten).length
            = sw * sh * 4 := by
          simp [mul_comm]
        simp [execMutOp, World.createRectSprite, World.createSprite, h1, hlen,
          Except.map] at herr
  | removeSprite h =>
      simp only [execMutOp, World.removeSprite] at herr ⊢
      cases hf : w.findSprite h <;> simp_all
  | setSpritePosition h x y =>
      simp only [execMutOp, World.setSpritePosition] at herr ⊢
      cases hf : w.findSprite h <;> simp_all
  | setSpriteRotation h angle =>
      simp only [execMutOp, World.setSpriteRotation] at herr ⊢
      cases hf : w.findSprite h <;> simp_all
  | setSpriteScale h sx sy =>
      simp only [execMutOp, World.setSpriteScale] at herr ⊢
      cases hf : w.findSprite h <;> simp_all
  | setSpriteZIndex h z =>
      simp only [execMutOp, World.setSpriteZIndex] at herr ⊢
      cases hf : w.findSprite h <;> simp_all
  | applySpriteTransform h rot sx sy =>
      simp only [execMutOp, World.applySpriteTransform] at herr ⊢
      cases hf : w.findSprite h <;> simp_all
  | resetSpriteTransform h =>
      simp only [execMutOp, World.resetSpriteTransform] at herr ⊢
      cases hf : w.findSprite h <;> simp_all
  | addToScene h =>
      simp only [execMutOp, World.addToScene] at herr ⊢
      cases hf : w.findSprite h
      · simp_all
      · simp only [hf] at herr ⊢
        split at herr <;> simp_all
  | removeFromScene h => simp [execMutOp, World.removeFromScene] at herr
  | setBackgroundColor r g b a => simp [execMutOp] at herr
  | setSamplingMethod code => simp [execMutOp] at herr
  | resizeScene sw sh =>
      by_cases h1 : sw * sh = 0
      · simp [execMutOp, World.resizeScene, h1]
      · simp [execMutOp, World.resizeScene, h1] at herr

/-- Witness for claim C6: a `createSprite` with a mismatched pixel buffer on
the example world fails with `BufferSizeMismatch` and leaves the world
unchanged, and a zero-dimension creation fails with `InvalidDimensions`. -/
theorem mutations_atomic_witness :
    (execMutOp wEx (MutOp.createSprite [1, 2, 3] 1 1)).1 = wEx
    ∧ wEx.createSprite [] 0 5
        = (wEx, Except.error EngineError.invalidDimensions)
    ∧ wEx.createSprite [1, 2, 3] 1 1
        = (wEx, Except.error EngineError.bufferSizeMismatch) :=
  ⟨mutations_atomic.1 wEx (MutOp.createSprite [1, 2, 3] 1 1)
      EngineError.bufferSizeMismatch rfl,
   mutations_atomic.2.1 wEx [] 0 5 (by decide),
   mutations_atomic.2.2 wEx [1, 2, 3] 1 1 (by decide) (by decide)⟩

/-! ## Claim C8 -/

theorem lookupSprite_updateSprite (h : ℕ) (f : SpriteData → SpriteData)
    (l : List (ℕ × SpriteData)) :
    lookupSprite h (updateSprite h f l) = (lookupSprite h l).map f := by
  induction l with
  | nil => rfl
  | cons p l ih =>
      by_cases hk : p.1 = h
      · cases p with
        | mk k sp =>
            simp only at hk
            rw [updateSprite, if_pos hk, lookupSprite, if_pos hk,
              lookupSprite, if_pos hk]
            rfl
      · cases p with
        | mk k sp =>
            simp only at hk
            rw [updateSprite, if_neg hk, lookupSprite, if_neg hk,
              lookupSprite, if_neg hk]
            exact ih

/-- Claim C8: the host-side `resetTransform` restores rotation 0 and scale
(1,1) in one step; on the core, `resetSpriteTransform` does the same, a
following `applySpriteTransform(0, 1, 1)` leaves that state intact, and the
resulting cached matrix coefficients equal those of a freshly created sprite
placed at the same position. -/
theorem reset_transform_identity :
    (∀ s : Sprite,
        (Sprite.resetTransform s).rotation = 0
        ∧ (Sprite.resetTransform s).scale = ⟨1, 1⟩)
    ∧ ∀ (w : World) (h : ℕ) (sp : SpriteData), w.findSprite h = some sp →
        ((w.resetSpriteTransform h).1.findSprite h
            = some { sp with rot := 0, scale := ⟨1, 1⟩ })
        ∧ (((w.resetSpriteTransform h).1.applySpriteTransform h 0 1 1).1.findSprite h
            = some { sp with rot := 0, scale := ⟨1, 1⟩ })
        ∧ ∀ cosf sinf : ℚ → ℚ,
            transformMatrix cosf sinf
              ({ sp with rot := 0, scale := ⟨1, 1⟩ } : SpriteData).pos
              ({ sp with rot := 0, scale := ⟨1, 1⟩ } : SpriteData).rot
              ({ sp with rot := 0, scale := ⟨1, 1⟩ } : SpriteData).scale
            = transformMatrix cosf sinf
                ({ mkSpriteData sp.data sp.width sp.height with
                    pos := sp.pos }).pos
                ({ mkSpriteData sp.data sp.width sp.height with
                    pos := sp.pos }).rot
                ({ mkSpriteData sp.data sp.width sp.height with
                    pos := sp.pos }).scale := by
  constructor
  · intro s
    exact ⟨rfl, rfl⟩
  · intro w h sp hf
    have h1 : (w.resetSpriteTransform h).1.findSprite h
        = some { sp with rot := 0, scale := ⟨1, 1⟩ } := by
      simp only [World.resetSpriteTransform, hf]
      show lookupSprite h (updateSprite h _ w.sprites) = _
      rw [lookupSprite_updateSprite]
      show (World.findSprite w h).map _ = _
      rw [hf]
      rfl
    refine ⟨h1, ?_, fun cosf sinf => rfl⟩
    simp only [World.applySpriteTransform, h1]
    show lookupSprite h (updateSprite h _ _) = _
    rw [lookupSprite_updateSprite]
    show (World.findSprite _ h).map _ = _
    rw [h1]
    rfl

/-- Witness for claim C8, instantiated on the host sprite `Sprite.init 0`
and the example world's sprite 0. -/
theorem reset_transform_identity_witness :
    ((Sprite.resetTransform (Sprite.init 0)).rotation = 0
      ∧ (Sprite.resetTransform (Sprite.init 0)).scale = ⟨1, 1⟩)
    ∧ ((wEx.resetSpriteTransform 0).1.findSprite 0
        = some { spEx with rot := 0, scale := ⟨1, 1⟩ })
    ∧ (((wEx.resetSpriteTransform 0).1.applySpriteTransform 0 0 1 1).1.findSprite 0
        = some { spEx with rot := 0, scale := ⟨1, 1⟩ })
    ∧ transformMatrix (fun _ => 1) (fun _ => 0)
        ({ spEx with rot := 0, scale := ⟨1, 1⟩ } : SpriteData).pos
        ({ spEx with rot := 0, scale := ⟨1, 1⟩ } : SpriteData).rot
        ({ spEx with rot := 0, scale := ⟨1, 1⟩ } : SpriteData).scale
      = transformMatrix (fun _ => 1) (fun _ => 0)
          ({ mkSpriteData spEx.data spEx.width spEx.height with
              pos := spEx.pos }).pos
          ({ mkSpriteData spEx.data spEx.width spEx.height with
              pos := spEx.pos }).rot
          ({ mkSpriteData spEx.data spEx.width spEx.height with
              pos := spEx.pos }).scale := by
  have hcore := reset_transform_identity.2 wEx 0 spEx rfl
  exact ⟨reset_transform_identity.1 (Sprite.init 0), hcore.1, hcore.2.1,
    hcore.2.2 (fun _ => 1) (fun _ => 0)⟩

/-! ## Evaluation lemmas for identity-transform sprites -/

theorem floor_natCast_add_half (n : ℕ) : ⌊(n : ℚ) + 1/2⌋ = n := by
  rw [add_comm, Int.floor_add_nat]
  norm_num

theorem overBlend_opaque (col d : Color) (ha : col.a = 255) :
    overBlend (liftColor col) d = col := by
  cases col with
  | mk r g b a =>
      simp only at ha
      subst ha
      simp only [overBlend, liftColor, chanByte, Color.mk.injEq]
      push_cast
      norm_num [Int.floor_natCast, Int.toNat_natCast]
      decide

/-- For a sprite with rotation 0, scale (1,1) and its top-left corner at the
integer scene offset `(ox, oy)`, the inverse transform sends the center of
destination pixel `(ox+i, oy+j)` to the local coordinate
`(i + 1/2, j + 1/2)`. -/
theorem invLocal_aligned (cosf sinf : ℚ → ℚ) (hcos : cosf 0 = 1)
    (hsin : sinf 0 = 0) (sp : SpriteData) (ox oy i j : ℕ)
    (hrot : sp.rot = 0) (hscale : sp.scale = ⟨1, 1⟩)
    (hpos : sp.pos = ⟨(ox : ℚ) + (sp.width : ℚ)/2,
                      (oy : ℚ) + (sp.height : ℚ)/2⟩) :
    invLocal cosf sinf sp ((((ox + i : ℕ)) : ℚ) + 1/2)
        ((((oy + j : ℕ)) : ℚ) + 1/2)
      = ⟨(i : ℚ) + 1/2, (j : ℚ) + 1/2⟩ := by
  simp only [invLocal, hrot, hscale, hpos, hcos, hsin, Vec2.mk.injEq]
  push_cast
  constructor <;> ring

/-- Sampling an in-range half-integer local coordinate under nearest
filtering returns the stored texel. -/
theorem sample_nearest_halfint (sp : SpriteData) (i j : ℕ)
    (hi : i < sp.width) (hj : j < sp.height) :
    sample SamplingMethod.nearest sp ((i : ℚ) + 1/2) ((j : ℚ) + 1/2)
      = liftColor (pixelAt sp.data sp.width i j) := by
  have hiq : (i : ℚ) + 1 ≤ (sp.width : ℚ) := by exact_mod_cast hi
  have hjq : (j : ℚ) + 1 ≤ (sp.height : ℚ) := by exact_mod_cast hj
  have hguard : ¬((i : ℚ) + 1/2 < 0 ∨ (sp.width : ℚ) ≤ (i : ℚ) + 1/2
      ∨ (j : ℚ) + 1/2 < 0 ∨ (sp.height : ℚ) ≤ (j : ℚ) + 1/2) := by
    push_neg
    refine ⟨by positivity, by linarith, by positivity, by linarith⟩
  simp only [sample]
  rw [if_neg hguard]
  simp only [nearestFilter, floor_natCast_add_half]
  have hb : (0 : ℤ) ≤ (i : ℤ) ∧ (i : ℤ) < sp.width
      ∧ (0 : ℤ) ≤ (j : ℤ) ∧ (j : ℤ) < sp.height := by
    refine ⟨Int.natCast_nonneg i, by exact_mod_cast hi,
      Int.natCast_nonneg j, by exact_mod_cast hj⟩
  simp only [texel]
  rw [if_pos hb, Int.toNat_natCast, Int.toNat_natCast]

/-- Painting a rotation-0, scale-(1,1) sprite whose top-left corner sits at
the integer offset `(ox, oy)`: a destination pixel covered by an opaque
source texel receives that texel byte-for-byte. -/
theorem paintSprite_nearest_aligned (cosf sinf : ℚ → ℚ) (hcos : cosf 0 = 1)
    (hsin : sinf 0 = 0) (fw fh ox oy i j : ℕ) (sp : SpriteData)
    (fb : ℕ → ℕ → Color)
    (hrot : sp.rot = 0) (hscale : sp.scale = ⟨1, 1⟩)
    (hpos : sp.pos = ⟨(ox : ℚ) + (sp.width : ℚ)/2,
                      (oy : ℚ) + (sp.height : ℚ)/2⟩)
    (hi : i < sp.width) (hj : j < sp.height)
    (hx : ox + i < fw) (hy : oy + j < fh)
    (ha : (pixelAt sp.data sp.width i j).a = 255) :
    paintSprite cosf sinf SamplingMethod.nearest fw fh sp fb (ox + i) (oy + j)
      = pixelAt sp.data sp.width i j := by
  simp only [paintSprite]
  rw [if_pos ⟨hx, hy⟩,
    invLocal_aligned cosf sinf hcos hsin sp ox oy i j hrot hscale hpos]
  simp only
  rw [sample_nearest_halfint sp i j hi hj]
  have hca : (liftColor (pixelAt sp.data sp.width i j)).a = (255 : ℚ) := by
    simp [liftColor, ha]
  rw [if_neg (by rw [hca]; norm_num)]
  exact overBlend_opaque _ _ ha

/-! ## Claim C7 -/

/-- Claim C7 (amended): for every sprite with rotation 0 and scale (1,1)
placed with its top-left corner at an integer frame offset, `render()` under
nearest sampling reproduces every fully opaque source pixel byte-for-byte at
its destination location. -/
theorem nearest_render_identity (cosf sinf : ℚ → ℚ) (hcos : cosf 0 = 1)
    (hsin : sinf 0 = 0) (fw fh ox oy i j : ℕ) (sp : SpriteData) (bg : Color)
    (hrot : sp.rot = 0) (hscale : sp.scale = ⟨1, 1⟩)
    (hpos : sp.pos = ⟨(ox : ℚ) + (sp.width : ℚ)/2,
                      (oy : ℚ) + (sp.height : ℚ)/2⟩)
    (hi : i < sp.width) (hj : j < sp.height)
    (hx : ox + i < fw) (hy : oy + j < fh)
    (ha : (pixelAt sp.data sp.width i j).a = 255) :
    render cosf sinf ⟨fw, fh, [(0, sp)], 1, [0], bg, 0⟩ (ox + i) (oy + j)
      = pixelAt sp.data sp.width i j := by
  have hov : orderedVisible ⟨fw, fh, [(0, sp)], 1, [0], bg, 0⟩ = [0] := rfl
  simp only [render, hov, List.foldl_cons, List.foldl_nil]
  exact paintSprite_nearest_aligned cosf sinf hcos hsin fw fh ox oy i j sp _
    hrot hscale hpos hi hj hx hy ha

/-- Witness for the amended claim C7: a 1×1 opaque sprite at the origin of a
1×1 frame is reproduced exactly. -/
theorem nearest_render_identity_witness :
    render (fun _ => 1) (fun _ => 0)
        ⟨1, 1, [(0, ⟨1, 1, [10, 20, 30, 255],
            ⟨(0 : ℚ) + (1 : ℚ)/2, (0 : ℚ) + (1 : ℚ)/2⟩, 0, ⟨1, 1⟩, 0⟩)],
          1, [0], ⟨0, 0, 0, 0⟩, 0⟩ (0 + 0) (0 + 0)
      = pixelAt [10, 20, 30, 255] 1 0 0 :=
  nearest_render_identity (fun _ => 1) (fun _ => 0) rfl rfl 1 1 0 0 0 0
    ⟨1, 1, [10, 20, 30, 255], ⟨(0 : ℚ) + (1 : ℚ)/2, (0 : ℚ) + (1 : ℚ)/2⟩,
      0, ⟨1, 1⟩, 0⟩ ⟨0, 0, 0, 0⟩ rfl rfl (by norm_num) (by decide) (by decide)
    (by decide) (by decide) (by decide)

/-- Painting a rotation-0, scale-(1,1) aligned sprite: a destination pixel
whose source texel has zero alpha (zero coverage) leaves the frame buffer
untouched. -/
theorem paintSprite_nearest_aligned_transparent (cosf sinf : ℚ → ℚ)
    (hcos : cosf 0 = 1) (hsin : sinf 0 = 0) (fw fh ox oy i j : ℕ)
    (sp : SpriteData) (fb : ℕ → ℕ → Color)
    (hrot : sp.rot = 0) (hscale : sp.scale = ⟨1, 1⟩)
    (hpos : sp.pos = ⟨(ox : ℚ) + (sp.width : ℚ)/2,
                      (oy : ℚ) + (sp.height : ℚ)/2⟩)
    (hi : i < sp.width) (hj : j < sp.height)
    (hx : ox + i < fw) (hy : oy + j < fh)
    (ha : (pixelAt sp.data sp.width i j).a = 0) :
    paintSprite cosf sinf SamplingMethod.nearest fw fh sp fb (ox + i) (oy + j)
      = fb (ox + i) (oy + j) := by
  simp only [paintSprite]
  rw [if_pos ⟨hx, hy⟩,
    invLocal_aligned cosf sinf hcos hsin sp ox oy i j hrot hscale hpos]
  simp only
  rw [sample_nearest_halfint sp i j hi hj]
  rw [if_pos (by simp [liftColor, ha])]

/-- A 1×1 sprite whose single pixel is fully transparent, placed over the
single pixel of a 1×1 frame. -/
def spT : SpriteData := ⟨1, 1, [10, 20, 30, 0], ⟨1/2, 1/2⟩, 0, ⟨1, 1⟩, 0⟩

/-- A world holding only `spT`, with an opaque gray background. -/
def wT : World := ⟨1, 1, [(0, spT)], 1, [0], ⟨9, 9, 9, 255⟩, 0⟩

/-- Claim C7, counterexample: a sprite with rotation 0 and scale (1,1) whose
pixel is not opaque is not reproduced byte-for-byte — its fully transparent
pixel leaves the background in the frame buffer instead. -/
theorem nearest_render_identity_cex :
    render (fun _ => 1) (fun _ => 0) wT 0 0 ≠ pixelAt spT.data spT.width 0 0 := by
  have h2 := paintSprite_nearest_aligned_transparent (fun _ => 1) (fun _ => 0)
    rfl rfl 1 1 0 0 0 0 spT (fun _ _ => wT.bg) rfl rfl (by norm_num [spT])
    (by decide) (by decide) (by decide) (by decide) (by decide)
  have h1 : render (fun _ => 1) (fun _ => 0) wT 0 0 = wT.bg := h2
  rw [h1]
  decide

/-! ## Claim C3 -/

/-- Sprite A of the z-order example: 1×1 opaque red, z-index 0, covering the
single frame pixel. -/
def spA : SpriteData := ⟨1, 1, [255, 0, 0, 255], ⟨1/2, 1/2⟩, 0, ⟨1, 1⟩, 0⟩

/-- Sprite B of the z-order example: 1×1 opaque blue, z-index 1, fully
overlapping A. -/
def spB : SpriteData := ⟨1, 1, [0, 0, 255, 255], ⟨1/2, 1/2⟩, 0, ⟨1, 1⟩, 1⟩

/-- The z-order example world: A and B both in the scene of a 1×1 frame. -/
def wAB : World := ⟨1, 1, [(0, spA), (1, spB)], 2, [0, 1], ⟨0, 0, 0, 0⟩, 0⟩

/-- The example world with the two z-indices swapped through the z-index
setter. -/
def wBA : World := ((wAB.setSpriteZIndex 0 1).1.setSpriteZIndex 1 0).1

/-- Claim C3: `orderedVisible()` returns exactly the visible (live scene)
handles, sorted ascending by z-index with ties broken by ascending handle
value; and compositing follows that order — with fully overlapping sprites A
(red, z=0) and B (blue, z=1), the composited frame shows B's pixel, and
swapping the two z-indices makes it show A's pixel. -/
theorem ordered_visible_compositing :
    (∀ w : World,
        List.Sorted (fun a b => spriteLe w a b = true) (orderedVisible w)
        ∧ (orderedVisible w).Perm (liveScene w)
        ∧ ∀ a b : ℕ, spriteLe w a b = true ↔
            (zindexOf w a < zindexOf w b
              ∨ (zindexOf w a = zindexOf w b ∧ a ≤ b)))
    ∧ render (fun _ => 1) (fun _ => 0) wAB 0 0 = ⟨0, 0, 255, 255⟩
    ∧ render (fun _ => 1) (fun _ => 0) wBA 0 0 = ⟨255, 0, 0, 255⟩ := by
  refine ⟨fun w => ⟨sorted_sortLe (spriteLe w) (spriteLe_total w)
      (spriteLe_trans w) _, perm_sortLe _ _, fun a b => ?_⟩, ?_, ?_⟩
  · simp [spriteLe]
  · have hov : orderedVisible wAB = [0, 1] := by decide
    simp only [render, hov, List.foldl_cons, List.foldl_nil]
    exact (paintSprite_nearest_aligned (fun _ => 1) (fun _ => 0) rfl rfl 1 1
      0 0 0 0 spB _ rfl rfl (by norm_num [spB]) (by decide) (by decide)
      (by decide) (by decide) (by decide)).trans (by decide)
  · have hov : orderedVisible wBA = [1, 0] := by decide
    simp only [render, hov, List.foldl_cons, List.foldl_nil]
    exact (paintSprite_nearest_aligned (fun _ => 1) (fun _ => 0) rfl rfl 1 1
      0 0 0 0 { spA with zindex := 1 } _ rfl rfl (by norm_num [spA])
      (by decide) (by decide) (by decide) (by decide) (by decide)).trans
      (by decide)

end QDDC
